import Mathlib

/-!
Shallow embedding of the prefix-level KMS key enforcement system:
the DynamoDB mapping table written by the reconciliation custom resource
(`ddb_custom_resource.py`), the longest-prefix policy resolver and the
remediation engine (`fix_encryption.py`), and the SQS batch handler
(`s3_encrypt.py`). Machine state (DynamoDB tables, the S3 object store)
is modelled as explicit lists that the embedded operations transform.
-/

/-- Byte-wise lexicographic comparison on lists of characters, the ordering
DynamoDB applies to string sort keys when evaluating the key condition
`prefix <= :object_name` and when returning items with
`ScanIndexForward = False`. (UTF-8 byte order coincides with code-point
order, which is the order on `Char`.) -/
def charListLe : List Char → List Char → Bool
  | [], _ => true
  | _ :: _, [] => false
  | a :: as, b :: bs => if a < b then true else if b < a then false else charListLe as bs

/-- Lexicographic order on strings, as DynamoDB orders its string sort keys. -/
def str_le (a b : String) : Bool := charListLe a.data b.data

/-- Python `object_name.startswith(item_prefix)`: string prefix test. -/
def startswith (s pre : String) : Bool := pre.data.isPrefixOf s.data

/-- One item of the prefix-to-KMS-key mapping table (partition key
`bucket_name`, sort key `prefix`, modelled as field `pfx` since `prefix`
is reserved in Lean). -/
structure PolicyRecord where
  bucket_name : String
  pfx : String
  kms_key_arn : String
  dual_layer_encryption : Bool
  insert_ts : String
  last_update_ts : String
deriving DecidableEq

/-- Descending order on mapping items by their sort key, the order in which
the resolver receives query results (`ScanIndexForward = False`). -/
def prefDesc (a b : PolicyRecord) : Prop :=
  charListLe b.pfx.data a.pfx.data = true

instance : DecidableRel prefDesc :=
  fun a b => inferInstanceAs (Decidable (charListLe b.pfx.data a.pfx.data = true))

/-- The DynamoDB query issued by `get_kms_key_info_for_s3_pfx`:
all items with `bucket_name = :bucket_name and prefix <= :object_name`,
returned in descending sort-key order (`ScanIndexForward = False`). -/
def ddb_query_mapping (table : List PolicyRecord) (bucket_name object_name : String) :
    List PolicyRecord :=
  List.insertionSort prefDesc
    (table.filter (fun r => r.bucket_name == bucket_name && str_le r.pfx object_name))

/-- The value assembled by `get_kms_key_info_for_s3_pfx` from the first
matching item. -/
structure KmsKeyInfo where
  kms_key_arn : String
  dual_layer_encryption : Bool
deriving DecidableEq

/-- `get_kms_key_info_for_s3_pfx` from `fix_encryption.py`: query the
mapping table for candidates with `prefix <= object_name` in descending
order, walk the results, and return the data of the first item whose
`prefix` is a string prefix of `object_name`; `none` when no item matches. -/
def get_kms_key_info_for_s3_pfx (table : List PolicyRecord)
    (bucket_name object_name : String) : Option KmsKeyInfo :=
  ((ddb_query_mapping table bucket_name object_name).find?
      (fun item => startswith object_name item.pfx)).map
    (fun item =>
      { kms_key_arn := item.kms_key_arn,
        dual_layer_encryption := item.dual_layer_encryption })

/-- A mapping table holding the three prefixes used by the testable
property of the specification: `a/`, `a/b/` and `a/b/c` under one bucket. -/
def exampleTable : List PolicyRecord :=
  [ { bucket_name := "bkt", pfx := "a/", kms_key_arn := "key-a",
      dual_layer_encryption := false, insert_ts := "t0", last_update_ts := "t0" },
    { bucket_name := "bkt", pfx := "a/b/", kms_key_arn := "key-ab",
      dual_layer_encryption := false, insert_ts := "t0", last_update_ts := "t0" },
    { bucket_name := "bkt", pfx := "a/b/c", kms_key_arn := "key-abc",
      dual_layer_encryption := false, insert_ts := "t0", last_update_ts := "t0" } ]

/-- One item of the audit log table, exactly the item dictionary built by
`log_action_into_ddb` (attribute `new_version_id` is present only for
versioned rewrites, hence an `Option`). -/
structure LogItem where
  s3_object_path : String
  current_timestamp_utc : String
  current_sse_type : String
  current_kms_key_arn : String
  new_sse_type : String
  new_kms_key_arn : String
  action_taken : String
  action_reason : String
  new_version_id : Option String
deriving DecidableEq

/-- `log_action_into_ddb`: a falsy `current_kms_key_arn` is replaced by the
string literal `None`, the item is assembled and appended to the log table
via `put_item`. The current UTC timestamp is the parameter `now`. -/
def log_action_into_ddb (log : List LogItem) (s3_object_path current_sse_type : String)
    (current_kms_key_arn : Option String)
    (new_sse_type new_kms_key_arn action_taken action_reason : String)
    (new_version_id : Option String) (now : String) : List LogItem :=
  log ++ [{ s3_object_path := s3_object_path,
            current_timestamp_utc := now,
            current_sse_type := current_sse_type,
            current_kms_key_arn := current_kms_key_arn.getD "None",
            new_sse_type := new_sse_type,
            new_kms_key_arn := new_kms_key_arn,
            action_taken := action_taken,
            action_reason := action_reason,
            new_version_id := new_version_id }]

/-- One stored version of an S3 object: its location, version id, the
server-side-encryption headers observed on `get_object`
(`x-amz-server-side-encryption` and the optional
`x-amz-server-side-encryption-aws-kms-key-id`), and its payload bytes. -/
structure S3Ver where
  bucket : String
  key : String
  vid : String
  sse_type : String
  kms_arn : Option String
  content : String
deriving DecidableEq

/-- The S3 store: a list of stored versions, newest first per object. -/
abbrev S3State := List S3Ver

/-- Key match used by `get_object` and `delete_object`: bucket and key, and
the version id when one is supplied. -/
def object_matches (b k : String) (vid : Option String) (o : S3Ver) : Bool :=
  o.bucket == b && o.key == k && (match vid with | some v => o.vid == v | none => true)

/-- `s3.get_object`: fetch the given version, or the latest version of the
object when no `VersionId` is supplied. -/
def get_object (s : S3State) (b k : String) (vid : Option String) : Option S3Ver :=
  s.find? (object_matches b k vid)

/-- `s3.copy_object` onto the same bucket and key in a versioned bucket:
S3 writes a fresh version (id `new_vid`, assigned by S3) carrying the
requested encryption and the source version content; it becomes the
latest version. -/
def copy_object_versioned (s : S3State) (b k : String) (src : S3Ver)
    (new_vid sse arn : String) : S3State :=
  { bucket := b, key := k, vid := new_vid, sse_type := sse,
    kms_arn := some arn, content := src.content } :: s

/-- `s3.delete_object` with an explicit `VersionId`: remove exactly that
version of that object. -/
def delete_object_version (s : S3State) (b k v : String) : S3State :=
  s.eraseP (fun o => o.bucket == b && o.key == k && o.vid == v)

/-- `s3.copy` onto the same unversioned bucket and key: the latest (only)
stored version is rewritten in place with the requested encryption, its
content unchanged. -/
def copy_in_place : S3State → String → String → String → String → S3State
  | [], _, _, _, _ => []
  | o :: rest, b, k, sse, arn =>
    if o.bucket == b && o.key == k then
      { o with sse_type := sse, kms_arn := some arn } :: rest
    else o :: copy_in_place rest b k sse arn

/-- Failure of an S3 call, propagated as a Python exception. -/
inductive S3Error
  | noSuchKey
deriving DecidableEq

deriving instance DecidableEq for Except

/-- The `s3://bucket/key` or `s3://bucket/key?versionId=V` locator computed
at the top of `fix_encryption_if_incorrect`. -/
def object_path (bucket_name object_name : String) (version_id : Option String) : String :=
  match version_id with
  | some v => "s3://" ++ bucket_name ++ "/" ++ object_name ++ "?versionId=" ++ v
  | none => "s3://" ++ bucket_name ++ "/" ++ object_name

/-- `fix_encryption_if_incorrect` from `fix_encryption.py`. Reads the object
(or the given version), resolves the policy for its prefix, and either logs
a no-op, or copies the object with the correct encryption (for a versioned
object: copy to a new version whose id `new_vid` is assigned by S3, log it,
delete the original version, log the deletion). `now` stands for the wall
clock read by the log calls. -/
def fix_encryption_if_incorrect (table : List PolicyRecord) (s3 : S3State)
    (log : List LogItem) (now new_vid : String)
    (bucket_name object_name : String) (version_id : Option String) :
    Except S3Error (S3State × List LogItem) :=
  match get_object s3 bucket_name object_name version_id with
  | none => .error .noSuchKey
  | some obj =>
    let s3_object_path := object_path bucket_name object_name version_id
    let current_sse_type := obj.sse_type
    let current_kms_key_arn := obj.kms_arn
    match get_kms_key_info_for_s3_pfx table bucket_name object_name with
    | none =>
      .ok (s3, log_action_into_ddb log s3_object_path current_sse_type current_kms_key_arn
        "None" "None" "None" "No KMS key configured for this object\x27s prefix" none now)
    | some correct_kms_key_info =>
      let new_kms_key_arn := correct_kms_key_info.kms_key_arn
      let new_sse_type :=
        if correct_kms_key_info.dual_layer_encryption then "aws:kms:dsse" else "aws:kms"
      if current_sse_type == new_sse_type && current_kms_key_arn == some new_kms_key_arn then
        .ok (s3, log_action_into_ddb log s3_object_path current_sse_type current_kms_key_arn
          new_sse_type new_kms_key_arn "None" "Already using the correct key" none now)
      else
        let action_reason :=
          if current_sse_type != new_sse_type then
            "Incorrect SSE type. Was " ++ current_sse_type ++
              " whereas it should have been " ++ new_sse_type
          else
            "Incorrect KMS key. Was " ++
              (match current_kms_key_arn with | some a => a | none => "None") ++
              " whereas it should hve been " ++ new_kms_key_arn
        match version_id with
        | some v =>
          let s3_after_copy :=
            copy_object_versioned s3 bucket_name object_name obj new_vid
              new_sse_type new_kms_key_arn
          let log_after_copy :=
            log_action_into_ddb log s3_object_path current_sse_type current_kms_key_arn
              new_sse_type new_kms_key_arn "Initiated copy with the right key"
              action_reason (some new_vid) now
          let s3_after_delete := delete_object_version s3_after_copy bucket_name object_name v
          let log_after_delete :=
            log_action_into_ddb log_after_copy s3_object_path current_sse_type
              current_kms_key_arn "N/A" "N/A"
              "Deleted old version with incorrect encryption" "N/A" none now
          .ok (s3_after_delete, log_after_delete)
        | none =>
          .ok (copy_in_place s3 bucket_name object_name new_sse_type new_kms_key_arn,
            log_action_into_ddb log s3_object_path current_sse_type current_kms_key_arn
              new_sse_type new_kms_key_arn "Initiated copy with the right key"
              action_reason none now)

/-- One record of an S3 event notification carried in an SQS message body:
bucket name, (url-decoded) object key, and the optional version id. -/
structure S3EventRec where
  bucket_name : String
  object_key : String
  version_id : Option String
deriving DecidableEq

/-- One SQS message: its `messageId` and its parsed JSON body. `none`
models a body with no `Records` field (the S3 test event sent when the
notification configuration of a bucket is updated). -/
structure SqsMsg where
  messageId : String
  body_records : Option (List S3EventRec)
deriving DecidableEq

/-- State threaded through the batch loop of `lambda_handler`: the S3
store, the audit log table, a counter feeding the supply of fresh version
ids, and the accumulated `batchItemFailures` identifiers. -/
structure HState where
  s3 : S3State
  log : List LogItem
  ctr : Nat
  failures : List String
deriving DecidableEq

/-- Processing of a single S3 record inside `lambda_handler`: call
`fix_encryption_if_incorrect`; on an exception append the `messageId` of
the enclosing SQS message to `batch_item_failures`. `gen st.ctr` is the
fresh version id S3 would assign to a copy made while processing this
record. -/
def process_record (table : List PolicyRecord) (gen : Nat → String) (now : String)
    (st : HState) (msg_id : String) (rec : S3EventRec) : HState :=
  match fix_encryption_if_incorrect table st.s3 st.log now (gen st.ctr)
      rec.bucket_name rec.object_key rec.version_id with
  | .ok (s3New, logNew) => { st with s3 := s3New, log := logNew, ctr := st.ctr + 1 }
  | .error _ => { st with failures := st.failures ++ [msg_id], ctr := st.ctr + 1 }

/-- Processing of one SQS message: a body with no `Records` field is
skipped silently; otherwise every record of the body is processed. -/
def process_msg (table : List PolicyRecord) (gen : Nat → String) (now : String)
    (st : HState) (msg : SqsMsg) : HState :=
  match msg.body_records with
  | none => st
  | some recs => recs.foldl (fun s r => process_record table gen now s msg.messageId r) st

/-- The response dictionary returned by `lambda_handler`: the success shape
carries no `batchItemFailures` entry at all, hence the `Option`. -/
structure HandlerResponse where
  statusCode : Nat
  batchItemFailures : Option (List String)
deriving DecidableEq

/-- `lambda_handler` from `s3_encrypt.py`: process every message of the
batch, then report 200 on full success and 500 with the collected
`batchItemFailures` otherwise. Returns the response together with the
final S3 store and audit log (the post-state of the external world). -/
def lambda_handler (table : List PolicyRecord) (gen : Nat → String) (now : String)
    (msgs : List SqsMsg) (s3 : S3State) (log : List LogItem) :
    HandlerResponse × S3State × List LogItem :=
  let st := msgs.foldl (process_msg table gen now) ⟨s3, log, 0, []⟩
  if st.failures.length == 0 then ({ statusCode := 200, batchItemFailures := none }, st.s3, st.log)
  else ({ statusCode := 500, batchItemFailures := some st.failures }, st.s3, st.log)

/-- One entry of the `MappingData` desired-state document: the CDK passes
`dual_layer_encryption` as the string `"true"` or `"false"`, which the
custom resource compares with `== 'true'`. -/
structure MappingValue where
  kms_key_arn : String
  dual_layer_encryption : String
deriving DecidableEq

/-- The desired-state document: a mapping from prefix to value (a Python
dict, modelled as an association list in iteration order). -/
abbrev MappingData := List (String × MappingValue)

/-- Failure of a DynamoDB write. -/
inductive DDBError
  | conditionalCheckFailed
deriving DecidableEq

/-- DynamoDB point lookup by the full primary key (bucket_name, prefix). -/
def ddb_get (table : List PolicyRecord) (b p : String) : Option PolicyRecord :=
  table.find? (fun r => r.bucket_name == b && r.pfx == p)

/-- Replace the (unique) record with key (b, p) by `newr`. -/
def set_record : List PolicyRecord → String → String → PolicyRecord → List PolicyRecord
  | [], _, _, _ => []
  | r :: rest, b, p, newr =>
    if r.bucket_name == b && r.pfx == p then newr :: rest
    else r :: set_record rest b p newr

/-- The `table.update_item` call of `update_ddb_items`, with
`UpdateExpression = "SET kms_key_arn = :k, dual_layer_encryption = :d,
last_update_ts = :t, insert_ts = if_not_exists(insert_ts, :t)"` and
`ConditionExpression = "kms_key_arn <> :k or dual_layer_encryption <> :d"`.
DynamoDB evaluates the condition against the stored item: when the item
exists and an attribute differs the SET is applied (`if_not_exists` keeps
the stored `insert_ts`); when both attributes already equal the supplied
values the condition is false and the write fails with
`ConditionalCheckFailedException`; and when no item with this key exists a
comparison on its attributes also evaluates to false, so the write fails
with `ConditionalCheckFailedException` and no item is created. -/
def update_item (table : List PolicyRecord) (bucket_name p kms_key_arn : String)
    (dual_layer_encryption : Bool) (now : String) :
    Except DDBError (List PolicyRecord) :=
  match ddb_get table bucket_name p with
  | some r =>
    if r.kms_key_arn != kms_key_arn || r.dual_layer_encryption != dual_layer_encryption then
      .ok (set_record table bucket_name p
        { bucket_name := bucket_name, pfx := p, kms_key_arn := kms_key_arn,
          dual_layer_encryption := dual_layer_encryption,
          insert_ts := r.insert_ts, last_update_ts := now })
    else .error .conditionalCheckFailed
  | none => .error .conditionalCheckFailed

/-- `update_ddb_items`: one conditional `update_item` per entry of
`mapping_data`; a `ConditionalCheckFailedException` is caught and ignored,
every other effect is kept. -/
def update_ddb_items (table : List PolicyRecord) (bucket_name : String)
    (mapping_data : MappingData) (now : String) : List PolicyRecord :=
  mapping_data.foldl
    (fun tbl entry =>
      match update_item tbl bucket_name entry.1 entry.2.kms_key_arn
          (entry.2.dual_layer_encryption == "true") now with
      | .ok t => t
      | .error _ => tbl)
    table

/-- `delete_missing_ddb_items`: list the records of this bucket and delete
every one whose prefix is not a key of `mapping_data`. -/
def delete_missing_ddb_items (table : List PolicyRecord) (bucket_name : String)
    (mapping_data : MappingData) : List PolicyRecord :=
  table.filter (fun r =>
    !(r.bucket_name == bucket_name) || mapping_data.any (fun e => e.1 == r.pfx))

/-- `insert_ddb_items` (the `on_create` path): put one fresh record per
entry of `mapping_data`, with `insert_ts = last_update_ts = now`. -/
def insert_ddb_items (table : List PolicyRecord) (bucket_name : String)
    (mapping_data : MappingData) (now : String) : List PolicyRecord :=
  table ++ mapping_data.map (fun e =>
    { bucket_name := bucket_name, pfx := e.1, kms_key_arn := e.2.kms_key_arn,
      dual_layer_encryption := e.2.dual_layer_encryption == "true",
      insert_ts := now, last_update_ts := now })

/-- `on_update` from `ddb_custom_resource.py`: update the items present in
`mapping_data`, then delete the items of this bucket that are missing from
it. -/
def on_update (table : List PolicyRecord) (bucket_name : String)
    (mapping_data : MappingData) (now : String) : List PolicyRecord :=
  delete_missing_ddb_items (update_ddb_items table bucket_name mapping_data now)
    bucket_name mapping_data

/-- A mapping table for concrete remediation runs: objects under doc/ in
bucket bkt must use key2 with single-layer encryption. -/
def c3Table : List PolicyRecord :=
  [{ bucket_name := "bkt", pfx := "doc/", kms_key_arn := "key2",
     dual_layer_encryption := false, insert_ts := "t0", last_update_ts := "t0" }]

/-- A versioned store holding one non-compliant version v1 of bkt/doc/a,
encrypted with key1 instead of the configured key2. -/
def c3Store : S3State :=
  [{ bucket := "bkt", key := "doc/a", vid := "v1", sse_type := "aws:kms",
     kms_arn := some "key1", content := "payload" }]

/-- A store holding objects o1 and o3 of bucket bkt but no object o2. -/
def c4Store : S3State :=
  [{ bucket := "bkt", key := "o1", vid := "v1", sse_type := "AES256",
     kms_arn := none, content := "x" },
   { bucket := "bkt", key := "o3", vid := "v1", sse_type := "AES256",
     kms_arn := none, content := "z" }]

/-- A batch of three messages; the object of message id2 does not exist in
`c4Store`, so only message id2 fails. -/
def c4Msgs : List SqsMsg :=
  [{ messageId := "id1",
     body_records := some [{ bucket_name := "bkt", object_key := "o1", version_id := none }] },
   { messageId := "id2",
     body_records := some [{ bucket_name := "bkt", object_key := "o2", version_id := none }] },
   { messageId := "id3",
     body_records := some [{ bucket_name := "bkt", object_key := "o3", version_id := none }] }]

theorem charListLe_cons (a b : Char) (as bs : List Char) :
    charListLe (a :: as) (b :: bs) = true ↔
      a < b ∨ (a = b ∧ charListLe as bs = true) := by
  show (if a < b then true else if b < a then false else charListLe as bs) = true ↔ _
  split_ifs with h1 h2
  · simp [h1]
  · constructor
    · intro h; exact absurd h (by simp)
    · rintro (h | ⟨rfl, -⟩)
      · exact absurd h h1
      · exact absurd h2 (lt_irrefl a)
  · have hab : a = b := le_antisymm (le_of_not_lt h2) (le_of_not_lt h1)
    simp [h1, hab]

theorem charListLe_total : ∀ l₁ l₂ : List Char,
    charListLe l₁ l₂ = true ∨ charListLe l₂ l₁ = true
  | [], _ => Or.inl rfl
  | _ :: _, [] => Or.inr rfl
  | a :: as, b :: bs => by
    rcases lt_trichotomy a b with h | h | h
    · exact Or.inl ((charListLe_cons a b as bs).mpr (Or.inl h))
    · rcases charListLe_total as bs with ih | ih
      · exact Or.inl ((charListLe_cons a b as bs).mpr (Or.inr ⟨h, ih⟩))
      · exact Or.inr ((charListLe_cons b a bs as).mpr (Or.inr ⟨h.symm, ih⟩))
    · exact Or.inr ((charListLe_cons b a bs as).mpr (Or.inl h))

theorem charListLe_trans : ∀ l₁ l₂ l₃ : List Char,
    charListLe l₁ l₂ = true → charListLe l₂ l₃ = true → charListLe l₁ l₃ = true
  | [], _, _, _, _ => rfl
  | _ :: _, [], _, h, _ => Bool.noConfusion h
  | _ :: _, _ :: _, [], _, h => Bool.noConfusion h
  | a :: as, b :: bs, c :: cs, h1, h2 => by
    rw [charListLe_cons] at h1 h2 ⊢
    rcases h1 with h1 | ⟨rfl, h1⟩
    · rcases h2 with h2 | ⟨rfl, h2⟩
      · exact Or.inl (h1.trans h2)
      · exact Or.inl h1
    · rcases h2 with h2 | ⟨rfl, h2⟩
      · exact Or.inl h2
      · exact Or.inr ⟨rfl, charListLe_trans as bs cs h1 h2⟩

theorem charListLe_of_extends : ∀ l₁ l₂ : List Char, l₁ <+: l₂ → charListLe l₁ l₂ = true
  | [], _, _ => rfl
  | a :: as, l₂, h => by
    obtain ⟨t, rfl⟩ := h
    rw [List.cons_append]
    exact (charListLe_cons a a as (as ++ t)).mpr
      (Or.inr ⟨rfl, charListLe_of_extends as (as ++ t) ⟨t, rfl⟩⟩)

theorem charListLe_ne_of_longer : ∀ l₁ l₂ : List Char, l₁ <+: l₂ →
    l₁.length < l₂.length → ¬ charListLe l₂ l₁ = true
  | [], [], _, hlen, _ => absurd hlen (lt_irrefl 0)
  | [], _ :: _, _, _, h => Bool.noConfusion h
  | a :: as, l₂, hp, hlen, h => by
    obtain ⟨t, rfl⟩ := hp
    rw [List.cons_append] at hlen h
    rw [charListLe_cons] at h
    rcases h with h | ⟨-, h⟩
    · exact absurd h (lt_irrefl a)
    · exact charListLe_ne_of_longer as (as ++ t) ⟨t, rfl⟩
        (by simpa using hlen) h

instance : IsTotal PolicyRecord prefDesc :=
  ⟨fun a b => (charListLe_total a.pfx.data b.pfx.data).symm⟩

instance : IsTrans PolicyRecord prefDesc :=
  ⟨fun a b c hab hbc => charListLe_trans c.pfx.data b.pfx.data a.pfx.data hbc hab⟩

theorem startswith_iff {s pre : String} : startswith s pre = true ↔ pre.data <+: s.data := by
  show pre.data.isPrefixOf s.data = true ↔ _
  exact List.isPrefixOf_iff_prefix

theorem mem_ddb_query_mapping {table : List PolicyRecord} {bucket_name object_name : String}
    {r : PolicyRecord} (hr : r ∈ table) (hb : r.bucket_name = bucket_name)
    (hpre : startswith object_name r.pfx = true) :
    r ∈ ddb_query_mapping table bucket_name object_name := by
  have hle : str_le r.pfx object_name = true :=
    charListLe_of_extends _ _ (startswith_iff.mp hpre)
  have : r ∈ table.filter (fun x => x.bucket_name == bucket_name && str_le x.pfx object_name) := by
    rw [List.mem_filter]
    exact ⟨hr, by rw [Bool.and_eq_true, beq_iff_eq]; exact ⟨hb, hle⟩⟩
  exact (List.perm_insertionSort prefDesc _).mem_iff.mpr this

theorem mem_table_of_query {table : List PolicyRecord} {bucket_name object_name : String}
    {r : PolicyRecord} (h : r ∈ ddb_query_mapping table bucket_name object_name) :
    r ∈ table ∧ r.bucket_name = bucket_name := by
  have := (List.perm_insertionSort prefDesc _).mem_iff.mp h
  rw [List.mem_filter, Bool.and_eq_true, beq_iff_eq] at this
  exact ⟨this.1, this.2.1⟩

/-- C1: the Policy Resolver returns the record whose stored prefix is the
longest string prefix of the object key (longest-prefix match), or none
when no stored prefix of that bucket is a prefix of the key; with stored
prefixes a/, a/b/ and a/b/c it resolves a/b/cde to the a/b/c record, a/x
to the a/ record, and z/ to none. The scanning order claimed (descending
lexicographic over candidates with prefix <= object_key, first match wins)
is the definition of `get_kms_key_info_for_s3_pfx` itself. -/
theorem c1_policy_resolver_longest_match :
    (∀ (table : List PolicyRecord) (bucket_name object_name : String),
      (∀ info, get_kms_key_info_for_s3_pfx table bucket_name object_name = some info →
        ∃ r, r ∈ table ∧ r.bucket_name = bucket_name ∧ startswith object_name r.pfx = true ∧
          info = { kms_key_arn := r.kms_key_arn,
                   dual_layer_encryption := r.dual_layer_encryption } ∧
          ∀ r2 ∈ table, r2.bucket_name = bucket_name →
            startswith object_name r2.pfx = true → r2.pfx.length ≤ r.pfx.length) ∧
      (get_kms_key_info_for_s3_pfx table bucket_name object_name = none →
        ∀ r ∈ table, r.bucket_name = bucket_name → startswith object_name r.pfx = false)) ∧
    get_kms_key_info_for_s3_pfx exampleTable "bkt" "a/b/cde" =
      some { kms_key_arn := "key-abc", dual_layer_encryption := false } ∧
    get_kms_key_info_for_s3_pfx exampleTable "bkt" "a/x" =
      some { kms_key_arn := "key-a", dual_layer_encryption := false } ∧
    get_kms_key_info_for_s3_pfx exampleTable "bkt" "z/" = none := by
  refine ⟨?_, by decide, by decide, by decide⟩
  intro table bucket_name object_name
  constructor
  · intro info hsome
    unfold get_kms_key_info_for_s3_pfx at hsome
    rw [Option.map_eq_some'] at hsome
    obtain ⟨r, hfind, rfl⟩ := hsome
    have hmem : r ∈ ddb_query_mapping table bucket_name object_name :=
      List.mem_of_find?_eq_some hfind
    obtain ⟨hrt, hrb⟩ := mem_table_of_query hmem
    rw [List.find?_eq_some] at hfind
    obtain ⟨hp, as, bs, hL, has⟩ := hfind
    refine ⟨r, hrt, hrb, hp, rfl, ?_⟩
    intro r2 hr2 hb2 hp2
    have hmem2 : r2 ∈ ddb_query_mapping table bucket_name object_name :=
      mem_ddb_query_mapping hr2 hb2 hp2
    rw [hL] at hmem2
    rcases List.mem_append.mp hmem2 with h2as | h2rbs
    · have hneg := has r2 h2as
      rw [hp2] at hneg
      exact absurd hneg (by decide)
    · rcases List.mem_cons.mp h2rbs with heq | h2bs
      · rw [heq]
      · have hs : List.Sorted prefDesc (ddb_query_mapping table bucket_name object_name) :=
          List.sorted_insertionSort prefDesc _
        rw [hL] at hs
        have hpw : List.Pairwise prefDesc (as ++ r :: bs) := hs
        have hcons : List.Pairwise prefDesc (r :: bs) := (List.pairwise_append.mp hpw).2.1
        have hrel : prefDesc r r2 := (List.pairwise_cons.mp hcons).1 r2 h2bs
        show r2.pfx.data.length ≤ r.pfx.data.length
        by_contra hlen
        push_neg at hlen
        have hpref : r.pfx.data <+: r2.pfx.data :=
          List.prefix_of_prefix_length_le (startswith_iff.mp hp) (startswith_iff.mp hp2)
            (le_of_lt hlen)
        exact charListLe_ne_of_longer r.pfx.data r2.pfx.data hpref hlen hrel
  · intro hnone r hr hb
    unfold get_kms_key_info_for_s3_pfx at hnone
    rw [Option.map_eq_none'] at hnone
    rw [List.find?_eq_none] at hnone
    cases hx : startswith object_name r.pfx
    · rfl
    · exact absurd hx (hnone r (mem_ddb_query_mapping hr hb hx))

/-- Witness for C1: the resolver applied to the example table and key z/
yields none, hence no stored prefix of the bucket is a prefix of z/. -/
theorem c1_policy_resolver_longest_match_witness : startswith "z/" "a/" = false :=
  (c1_policy_resolver_longest_match.1 exampleTable "bkt" "z/").2 (by decide)
    { bucket_name := "bkt", pfx := "a/", kms_key_arn := "key-a",
      dual_layer_encryption := false, insert_ts := "t0", last_update_ts := "t0" }
    (by decide) rfl

/-- C2 (refuting evaluation): Reconcile never inserts a prefix that has no
existing record. The conditional update of `update_ddb_items` carries
`ConditionExpression "kms_key_arn <> :k or dual_layer_encryption <> :d"`;
on a missing item DynamoDB evaluates a comparison condition to false, the
write fails with `ConditionalCheckFailedException`, and the handler
swallows that exception, so the desired prefix p3 is never written:
starting from a table holding only p1 and reconciling towards
desired = {p1 (unchanged), p3}, the table afterwards still holds exactly
p1 and has no record for p3 — contradicting the claim that p3 is
inserted. -/
theorem c2_reconcile_does_not_insert_missing :
    on_update
        [{ bucket_name := "bkt", pfx := "p1", kms_key_arn := "k1",
           dual_layer_encryption := false, insert_ts := "t0", last_update_ts := "t0" }]
        "bkt"
        [("p1", { kms_key_arn := "k1", dual_layer_encryption := "false" }),
         ("p3", { kms_key_arn := "k3", dual_layer_encryption := "false" })]
        "t1" =
      [{ bucket_name := "bkt", pfx := "p1", kms_key_arn := "k1",
         dual_layer_encryption := false, insert_ts := "t0", last_update_ts := "t0" }] ∧
    ddb_get
        (on_update
          [{ bucket_name := "bkt", pfx := "p1", kms_key_arn := "k1",
             dual_layer_encryption := false, insert_ts := "t0", last_update_ts := "t0" }]
          "bkt"
          [("p1", { kms_key_arn := "k1", dual_layer_encryption := "false" }),
           ("p3", { kms_key_arn := "k3", dual_layer_encryption := "false" })]
          "t1")
        "bkt" "p3" = none := by
  exact ⟨by decide, by decide⟩

theorem ddb_get_cons (r : PolicyRecord) (rest : List PolicyRecord) (b p : String) :
    ddb_get (r :: rest) b p =
      if r.bucket_name == b && r.pfx == p then some r else ddb_get rest b p := by
  simp only [ddb_get, List.find?_cons]
  cases hc : (r.bucket_name == b && r.pfx == p) <;> simp [hc]

theorem set_record_cons (r : PolicyRecord) (rest : List PolicyRecord) (b p : String)
    (newr : PolicyRecord) :
    set_record (r :: rest) b p newr =
      if r.bucket_name == b && r.pfx == p then newr :: rest
      else r :: set_record rest b p newr := rfl

theorem ddb_get_set_record_ne (tbl : List PolicyRecord) (b q p : String)
    (newr : PolicyRecord) (hne : p ≠ q) (hnew : newr.pfx = q) :
    ddb_get (set_record tbl b q newr) b p = ddb_get tbl b p := by
  induction tbl with
  | nil => rfl
  | cons r rest ih =>
    rw [set_record_cons, ddb_get_cons]
    by_cases hmatch : (r.bucket_name == b && r.pfx == q) = true
    · rw [if_pos hmatch, ddb_get_cons]
      rw [Bool.and_eq_true, beq_iff_eq, beq_iff_eq] at hmatch
      have hrp : (r.pfx == p) = false := by
        rw [beq_eq_false_iff_ne, hmatch.2]; exact fun h => hne h.symm
      have hnp : (newr.pfx == p) = false := by
        rw [beq_eq_false_iff_ne, hnew]; exact fun h => hne h.symm
      rw [if_neg (by simp [hnp]), if_neg (by simp [hrp])]
    · rw [if_neg hmatch, ddb_get_cons, ih]

theorem ddb_get_set_record_self (tbl : List PolicyRecord) (b p : String)
    (newr r : PolicyRecord) (hget : ddb_get tbl b p = some r)
    (hb : newr.bucket_name = b) (hp : newr.pfx = p) :
    ddb_get (set_record tbl b p newr) b p = some newr := by
  induction tbl with
  | nil => exact absurd hget (by simp [ddb_get])
  | cons r0 rest ih =>
    rw [set_record_cons]
    by_cases hmatch : (r0.bucket_name == b && r0.pfx == p) = true
    · rw [if_pos hmatch, ddb_get_cons, if_pos (by simp [hb, hp])]
    · rw [if_neg hmatch, ddb_get_cons, if_neg hmatch]
      rw [ddb_get_cons, if_neg hmatch] at hget
      exact ih hget

theorem find?_filter_of_imp {α : Type} (l : List α) (q keep : α → Bool)
    (h : ∀ x, q x = true → keep x = true) :
    (l.filter keep).find? q = l.find? q := by
  induction l with
  | nil => rfl
  | cons x rest ih =>
    by_cases hk : keep x = true
    · rw [List.filter_cons_of_pos hk, List.find?_cons, List.find?_cons]
      cases hq : q x
      · exact ih
      · rfl
    · have hq : q x = false := by
        cases hx : q x
        · rfl
        · exact absurd (h x hx) hk
      rw [List.filter_cons_of_neg (by simpa using hk), List.find?_cons, hq, ih]

theorem update_item_matching_err {tbl : List PolicyRecord} {b p now : String}
    {r : PolicyRecord} {k : String} {d : Bool} (hget : ddb_get tbl b p = some r)
    (hk : r.kms_key_arn = k) (hd : r.dual_layer_encryption = d) :
    update_item tbl b p k d now = .error .conditionalCheckFailed := by
  rw [update_item, hget, ← hk, ← hd]
  simp

theorem update_item_ok_shape {tbl : List PolicyRecord} {b p k now : String} {d : Bool}
    {t : List PolicyRecord} (h : update_item tbl b p k d now = .ok t) :
    ∃ r, ddb_get tbl b p = some r ∧ t = set_record tbl b p
      { bucket_name := b, pfx := p, kms_key_arn := k, dual_layer_encryption := d,
        insert_ts := r.insert_ts, last_update_ts := now } := by
  rw [update_item] at h
  split at h
  · rename_i r0 hfind
    split at h
    · exact ⟨r0, hfind, (Except.ok.inj h).symm⟩
    · exact absurd h (by simp)
  · exact absurd h (by simp)

theorem ddb_get_update_ddb_items_eq (bucket_name p now : String) (r : PolicyRecord)
    (v : MappingValue) (hk : r.kms_key_arn = v.kms_key_arn)
    (hd : r.dual_layer_encryption = (v.dual_layer_encryption == "true")) :
    ∀ (mapping_data : MappingData) (tbl : List PolicyRecord),
      (∀ e ∈ mapping_data, e.1 = p → e.2 = v) →
      ddb_get tbl bucket_name p = some r →
      ddb_get (update_ddb_items tbl bucket_name mapping_data now) bucket_name p = some r
  | [], _, _, hget => hget
  | e :: rest, tbl, huniq, hget => by
    rw [update_ddb_items, List.foldl_cons]
    have step : ddb_get
        (match update_item tbl bucket_name e.1 e.2.kms_key_arn
            (e.2.dual_layer_encryption == "true") now with
          | .ok t => t
          | .error _ => tbl) bucket_name p = some r := by
      by_cases hep : e.1 = p
      · have hev : e.2 = v := huniq e (List.mem_cons_self e rest) hep
        rw [hep, hev, update_item_matching_err hget hk hd]
        exact hget
      · cases hupd : update_item tbl bucket_name e.1 e.2.kms_key_arn
            (e.2.dual_layer_encryption == "true") now with
        | error err => simp only [hupd]; exact hget
        | ok t =>
          simp only [hupd]
          obtain ⟨r0, -, rfl⟩ := update_item_ok_shape hupd
          rw [ddb_get_set_record_ne tbl bucket_name e.1 p _ (Ne.symm hep) rfl]
          exact hget
    exact ddb_get_update_ddb_items_eq bucket_name p now r v hk hd rest _
      (fun x hx hxp => huniq x (List.mem_cons_of_mem e hx) hxp) step

theorem ddb_get_delete_missing (tbl : List PolicyRecord) (bucket_name p : String)
    (mapping_data : MappingData) (v : MappingValue) (hmem : (p, v) ∈ mapping_data) :
    ddb_get (delete_missing_ddb_items tbl bucket_name mapping_data) bucket_name p =
      ddb_get tbl bucket_name p := by
  apply find?_filter_of_imp
  intro x hx
  rw [Bool.and_eq_true, beq_iff_eq, beq_iff_eq] at hx
  have hany : mapping_data.any (fun e => e.1 == x.pfx) = true := by
    rw [List.any_eq_true]
    exact ⟨(p, v), hmem, by rw [hx.2]; exact beq_self_eq_true p⟩
  rw [hany]
  simp

/-- C5: a record whose (key, dual-layer) values already equal the desired
values is not written at all during Reconcile: the conditional update
fails with `ConditionalCheckFailedException`, the handler treats that as
success, and after the whole `on_update` (updates plus deletion of
missing prefixes) the record is still present and byte-for-byte unchanged,
in particular its `last_update_ts` is not bumped. -/
theorem c5_matching_record_untouched (table : List PolicyRecord)
    (bucket_name p now : String) (r : PolicyRecord) (v : MappingValue)
    (mapping_data : MappingData)
    (hget : ddb_get table bucket_name p = some r)
    (hk : r.kms_key_arn = v.kms_key_arn)
    (hd : r.dual_layer_encryption = (v.dual_layer_encryption == "true"))
    (hmem : (p, v) ∈ mapping_data)
    (huniq : ∀ e ∈ mapping_data, e.1 = p → e.2 = v) :
    update_item table bucket_name p v.kms_key_arn (v.dual_layer_encryption == "true") now =
      .error .conditionalCheckFailed ∧
    ddb_get (on_update table bucket_name mapping_data now) bucket_name p = some r := by
  constructor
  · exact update_item_matching_err hget hk hd
  · rw [on_update, ddb_get_delete_missing _ _ _ _ v hmem]
    exact ddb_get_update_ddb_items_eq bucket_name p now r v hk hd mapping_data table
      huniq hget

/-- Witness for C5: concrete no-op reconcile leaves the concrete record,
including its timestamps, unchanged. -/
theorem c5_matching_record_untouched_witness :
    ddb_get
        (on_update
          [{ bucket_name := "bkt", pfx := "p1", kms_key_arn := "k1",
             dual_layer_encryption := false, insert_ts := "t0", last_update_ts := "t0" }]
          "bkt" [("p1", { kms_key_arn := "k1", dual_layer_encryption := "false" })] "t9")
        "bkt" "p1" =
      some { bucket_name := "bkt", pfx := "p1", kms_key_arn := "k1",
             dual_layer_encryption := false, insert_ts := "t0", last_update_ts := "t0" } :=
  (c5_matching_record_untouched _ "bkt" "p1" "t9"
      { bucket_name := "bkt", pfx := "p1", kms_key_arn := "k1",
        dual_layer_encryption := false, insert_ts := "t0", last_update_ts := "t0" }
      { kms_key_arn := "k1", dual_layer_encryption := "false" } _
      (by decide) (by decide) (by decide) (by decide)
      (by intro e he hep; simp at he; rw [he])).2

/-- C6: an update that does change `kms_key_arn` or `dual_layer_encryption`
rewrites the record with `last_update_ts = now` while `insert_ts` keeps its
stored value (`if_not_exists(insert_ts, :t)`), so `created_at` is immutable
under updates; and the update path never creates a record, so `insert_ts`
can only ever be assigned by the insert path. -/
theorem c6_update_preserves_insert_ts (table : List PolicyRecord)
    (bucket_name p kms_key_arn now : String) (dual_layer_encryption : Bool)
    (r : PolicyRecord) (hget : ddb_get table bucket_name p = some r)
    (hdiff : r.kms_key_arn ≠ kms_key_arn ∨ r.dual_layer_encryption ≠ dual_layer_encryption) :
    update_item table bucket_name p kms_key_arn dual_layer_encryption now =
      .ok (set_record table bucket_name p
        { bucket_name := bucket_name, pfx := p, kms_key_arn := kms_key_arn,
          dual_layer_encryption := dual_layer_encryption,
          insert_ts := r.insert_ts, last_update_ts := now }) ∧
    ddb_get (set_record table bucket_name p
        { bucket_name := bucket_name, pfx := p, kms_key_arn := kms_key_arn,
          dual_layer_encryption := dual_layer_encryption,
          insert_ts := r.insert_ts, last_update_ts := now }) bucket_name p =
      some ({ bucket_name := bucket_name, pfx := p, kms_key_arn := kms_key_arn,
              dual_layer_encryption := dual_layer_encryption,
              insert_ts := r.insert_ts, last_update_ts := now } : PolicyRecord) ∧
    (∀ tbl : List PolicyRecord, ddb_get tbl bucket_name p = none →
      update_item tbl bucket_name p kms_key_arn dual_layer_encryption now =
        .error .conditionalCheckFailed) := by
  refine ⟨?_, ?_, ?_⟩
  · have hcond : (r.kms_key_arn != kms_key_arn ||
        r.dual_layer_encryption != dual_layer_encryption) = true := by
      rcases hdiff with h | h
      · simp [bne_iff_ne, h]
      · simp [bne_iff_ne, h]
    simp [update_item, hget, hcond]
  · exact ddb_get_set_record_self table bucket_name p _ r hget rfl rfl
  · intro tbl hnone
    rw [update_item, hnone]

/-- Witness for C6: updating the key of a concrete record bumps
`last_update_ts` to the new clock value and keeps `insert_ts`. -/
theorem c6_update_preserves_insert_ts_witness :
    update_item
        [{ bucket_name := "bkt", pfx := "p1", kms_key_arn := "k1",
           dual_layer_encryption := false, insert_ts := "t0", last_update_ts := "t0" }]
        "bkt" "p1" "k2" false "t9" =
      .ok [{ bucket_name := "bkt", pfx := "p1", kms_key_arn := "k2",
             dual_layer_encryption := false, insert_ts := "t0", last_update_ts := "t9" }] :=
  (c6_update_preserves_insert_ts _ "bkt" "p1" "k2" "t9" false
      { bucket_name := "bkt", pfx := "p1", kms_key_arn := "k1",
        dual_layer_encryption := false, insert_ts := "t0", last_update_ts := "t0" }
      (by decide) (Or.inl (by decide))).1

theorem append_ne_self_of_ne_nil {α : Type} (l es : List α) (h : es ≠ []) : l ++ es ≠ l := by
  intro heq
  have hlen := congrArg List.length heq
  rw [List.length_append] at hlen
  have hz : es.length = 0 := by omega
  exact h (List.length_eq_zero.mp hz)

theorem fix_ok_log_append {table : List PolicyRecord} {s3 : S3State} {log : List LogItem}
    {now new_vid bucket_name object_name : String} {version_id : Option String}
    {s3New : S3State} {logNew : List LogItem}
    (h : fix_encryption_if_incorrect table s3 log now new_vid bucket_name object_name
        version_id = .ok (s3New, logNew)) :
    ∃ es, logNew = log ++ es ∧ es ≠ [] := by
  rcases hobj : get_object s3 bucket_name object_name version_id with _ | obj
  · rw [fix_encryption_if_incorrect, hobj] at h
    exact absurd h (by simp)
  · rcases hres : get_kms_key_info_for_s3_pfx table bucket_name object_name with _ | info
    · simp only [fix_encryption_if_incorrect, hobj, hres, log_action_into_ddb,
        Except.ok.injEq, Prod.mk.injEq] at h
      exact ⟨_, h.2.symm, by simp⟩
    · by_cases hc : (obj.sse_type ==
          (if info.dual_layer_encryption then "aws:kms:dsse" else "aws:kms") &&
          obj.kms_arn == some info.kms_key_arn) = true
      · simp only [fix_encryption_if_incorrect, hobj, hres, hc, if_true, log_action_into_ddb,
          Except.ok.injEq, Prod.mk.injEq] at h
        exact ⟨_, h.2.symm, by simp⟩
      · rw [Bool.not_eq_true] at hc
        rcases version_id with _ | v
        · simp only [fix_encryption_if_incorrect, hobj, hres, hc, Bool.false_eq_true, if_false,
            log_action_into_ddb, Except.ok.injEq, Prod.mk.injEq] at h
          exact ⟨_, h.2.symm, by simp⟩
        · simp only [fix_encryption_if_incorrect, hobj, hres, hc, Bool.false_eq_true, if_false,
            log_action_into_ddb, Except.ok.injEq, Prod.mk.injEq] at h
          exact ⟨_, by rw [← h.2, List.append_assoc], by simp⟩

theorem process_record_log_extends (table : List PolicyRecord) (gen : Nat → String)
    (now : String) (st : HState) (msg_id : String) (rec : S3EventRec) :
    ∃ es, (process_record table gen now st msg_id rec).log = st.log ++ es := by
  rcases hfix : fix_encryption_if_incorrect table st.s3 st.log now (gen st.ctr)
      rec.bucket_name rec.object_key rec.version_id with err | ⟨s3N, logN⟩
  · exact ⟨[], by simp only [process_record, hfix]; simp⟩
  · obtain ⟨es, hes, -⟩ := fix_ok_log_append hfix
    exact ⟨es, by simp only [process_record, hfix]; exact hes⟩

theorem foldl_records_log_extends (table : List PolicyRecord) (gen : Nat → String)
    (now msg_id : String) :
    ∀ (recs : List S3EventRec) (st : HState),
      ∃ es, (recs.foldl (fun s r => process_record table gen now s msg_id r) st).log =
        st.log ++ es
  | [], st => ⟨[], (List.append_nil _).symm⟩
  | r :: rs, st => by
    obtain ⟨es1, h1⟩ := process_record_log_extends table gen now st msg_id r
    obtain ⟨es2, h2⟩ := foldl_records_log_extends table gen now msg_id rs
      (process_record table gen now st msg_id r)
    exact ⟨es1 ++ es2, by rw [List.foldl_cons, h2, h1, List.append_assoc]⟩

theorem process_msg_log_extends (table : List PolicyRecord) (gen : Nat → String)
    (now : String) (st : HState) (msg : SqsMsg) :
    ∃ es, (process_msg table gen now st msg).log = st.log ++ es := by
  rcases msg with ⟨msg_id, _ | recs⟩
  · exact ⟨[], (List.append_nil _).symm⟩
  · exact foldl_records_log_extends table gen now msg_id recs st

theorem run_log_extends (table : List PolicyRecord) (gen : Nat → String) (now : String) :
    ∀ (msgs : List SqsMsg) (st : HState),
      ∃ es, (msgs.foldl (process_msg table gen now) st).log = st.log ++ es
  | [], st => ⟨[], (List.append_nil _).symm⟩
  | m :: ms, st => by
    obtain ⟨es1, h1⟩ := process_msg_log_extends table gen now st m
    obtain ⟨es2, h2⟩ := run_log_extends table gen now ms (process_msg table gen now st m)
    exact ⟨es1 ++ es2, by rw [List.foldl_cons, h2, h1, List.append_assoc]⟩

/-- C7: every completed remediation run appends at least one audit entry
(the prior log is a strict prefix of the new log), and no path of the
system rewrites or removes existing entries: the batch handler as well
only ever extends the audit log. -/
theorem c7_audit_trail_completeness :
    (∀ (table : List PolicyRecord) (s3 : S3State) (log : List LogItem)
        (now new_vid bucket_name object_name : String) (version_id : Option String)
        (s3New : S3State) (logNew : List LogItem),
      fix_encryption_if_incorrect table s3 log now new_vid bucket_name object_name
          version_id = .ok (s3New, logNew) →
      log <+: logNew ∧ logNew ≠ log) ∧
    (∀ (table : List PolicyRecord) (gen : Nat → String) (now : String)
        (msgs : List SqsMsg) (s3 : S3State) (log : List LogItem),
      log <+: (lambda_handler table gen now msgs s3 log).2.2) := by
  constructor
  · intro table s3 log now new_vid bucket_name object_name version_id s3New logNew h
    obtain ⟨es, hes, hne⟩ := fix_ok_log_append h
    exact ⟨⟨es, hes.symm⟩, by rw [hes]; exact append_ne_self_of_ne_nil log es hne⟩
  · intro table gen now msgs s3 log
    obtain ⟨es, hes⟩ := run_log_extends table gen now msgs ⟨s3, log, 0, []⟩
    refine ⟨es, ?_⟩
    simp only [lambda_handler]
    split
    · exact hes.symm
    · exact hes.symm

/-- Witness for C7: a concrete run on an object with no configured prefix
still appends one audit entry to the empty log. -/
theorem c7_audit_trail_completeness_witness :
    ([] : List LogItem) <+:
      [{ s3_object_path := "s3://bkt/o1", current_timestamp_utc := "t1",
         current_sse_type := "AES256", current_kms_key_arn := "None",
         new_sse_type := "None", new_kms_key_arn := "None", action_taken := "None",
         action_reason := "No KMS key configured for this object\x27s prefix",
         new_version_id := none }] ∧
    [({ s3_object_path := "s3://bkt/o1", current_timestamp_utc := "t1",
        current_sse_type := "AES256", current_kms_key_arn := "None",
        new_sse_type := "None", new_kms_key_arn := "None", action_taken := "None",
        action_reason := "No KMS key configured for this object\x27s prefix",
        new_version_id := none } : LogItem)] ≠ ([] : List LogItem) :=
  c7_audit_trail_completeness.1 [] c4Store [] "t1" "nv" "bkt" "o1" none c4Store
    [{ s3_object_path := "s3://bkt/o1", current_timestamp_utc := "t1",
       current_sse_type := "AES256", current_kms_key_arn := "None",
       new_sse_type := "None", new_kms_key_arn := "None", action_taken := "None",
       action_reason := "No KMS key configured for this object\x27s prefix",
       new_version_id := none }] (by decide)

/-- C8: when no prefix of the object is configured, remediation terminates
normally (no exception), leaves the object store untouched (no rewrite and
no delete), and appends exactly one audit entry with action None and the
reason naming the unconfigured prefix. -/
theorem c8_unconfigured_prefix_terminal_noop (table : List PolicyRecord) (s3 : S3State)
    (log : List LogItem) (now new_vid bucket_name object_name : String)
    (version_id : Option String) (obj : S3Ver)
    (hobj : get_object s3 bucket_name object_name version_id = some obj)
    (hres : get_kms_key_info_for_s3_pfx table bucket_name object_name = none) :
    fix_encryption_if_incorrect table s3 log now new_vid bucket_name object_name version_id =
      .ok (s3, log ++
        [{ s3_object_path := object_path bucket_name object_name version_id,
           current_timestamp_utc := now, current_sse_type := obj.sse_type,
           current_kms_key_arn := obj.kms_arn.getD "None",
           new_sse_type := "None", new_kms_key_arn := "None", action_taken := "None",
           action_reason := "No KMS key configured for this object\x27s prefix",
           new_version_id := none }]) := by
  simp [fix_encryption_if_incorrect, hobj, hres, log_action_into_ddb]

/-- Witness for C8: concrete unconfigured object, concrete NONE entry. -/
theorem c8_unconfigured_prefix_terminal_noop_witness :
    fix_encryption_if_incorrect [] c4Store [] "t1" "nv" "bkt" "o1" none =
      .ok (c4Store, [] ++
        [{ s3_object_path := object_path "bkt" "o1" none,
           current_timestamp_utc := "t1", current_sse_type := ("AES256" : String),
           current_kms_key_arn := (none : Option String).getD "None",
           new_sse_type := "None", new_kms_key_arn := "None", action_taken := "None",
           action_reason := "No KMS key configured for this object\x27s prefix",
           new_version_id := none }]) :=
  c8_unconfigured_prefix_terminal_noop [] c4Store [] "t1" "nv" "bkt" "o1" none
    { bucket := "bkt", key := "o1", vid := "v1", sse_type := "AES256",
      kms_arn := none, content := "x" } (by decide) (by decide)

/-- C9: remediation is idempotent. When the observed encryption type and
key already equal the ones resolved from policy, the run performs no copy
and no delete — the object store is returned unchanged, whatever the log
and clock are, so the run can be repeated arbitrarily often — and appends
one audit entry with action None whose reason classifies the object as
already compliant (the code renders it as: Already using the correct
key). -/
theorem c9_remediation_idempotent (table : List PolicyRecord) (s3 : S3State)
    (bucket_name object_name : String) (version_id : Option String)
    (obj : S3Ver) (info : KmsKeyInfo)
    (hobj : get_object s3 bucket_name object_name version_id = some obj)
    (hres : get_kms_key_info_for_s3_pfx table bucket_name object_name = some info)
    (hsse : obj.sse_type = (if info.dual_layer_encryption then "aws:kms:dsse" else "aws:kms"))
    (harn : obj.kms_arn = some info.kms_key_arn) :
    ∀ (log : List LogItem) (now new_vid : String),
      fix_encryption_if_incorrect table s3 log now new_vid bucket_name object_name
          version_id =
        .ok (s3, log ++
          [{ s3_object_path := object_path bucket_name object_name version_id,
             current_timestamp_utc := now, current_sse_type := obj.sse_type,
             current_kms_key_arn := obj.kms_arn.getD "None",
             new_sse_type := if info.dual_layer_encryption then "aws:kms:dsse" else "aws:kms",
             new_kms_key_arn := info.kms_key_arn, action_taken := "None",
             action_reason := "Already using the correct key",
             new_version_id := none }]) := by
  intro log now new_vid
  simp [fix_encryption_if_incorrect, hobj, hres, hsse, harn, log_action_into_ddb]

/-- Witness for C9: a compliant object (key2 under doc/ as configured) is
left untouched and yields the already-compliant NONE entry; applied twice,
showing the second run is again a no-op on the unchanged store. -/
theorem c9_remediation_idempotent_witness :
    fix_encryption_if_incorrect c3Table
        [{ bucket := "bkt", key := "doc/a", vid := "v1", sse_type := "aws:kms",
           kms_arn := some "key2", content := "payload" }] [] "t1" "nv" "bkt" "doc/a" none =
      .ok ([{ bucket := "bkt", key := "doc/a", vid := "v1", sse_type := "aws:kms",
              kms_arn := some "key2", content := "payload" }], [] ++
        [{ s3_object_path := object_path "bkt" "doc/a" none,
           current_timestamp_utc := "t1", current_sse_type := ("aws:kms" : String),
           current_kms_key_arn := (some "key2" : Option String).getD "None",
           new_sse_type := if (false : Bool) then "aws:kms:dsse" else "aws:kms",
           new_kms_key_arn := "key2", action_taken := "None",
           action_reason := "Already using the correct key",
           new_version_id := none }]) :=
  c9_remediation_idempotent c3Table
    [{ bucket := "bkt", key := "doc/a", vid := "v1", sse_type := "aws:kms",
       kms_arn := some "key2", content := "payload" }] "bkt" "doc/a" none
    { bucket := "bkt", key := "doc/a", vid := "v1", sse_type := "aws:kms",
      kms_arn := some "key2", content := "payload" }
    { kms_key_arn := "key2", dual_layer_encryption := false }
    (by decide) (by decide) (by decide) (by decide) [] "t1" "nv"

/-- C3 (amended): for a versioned object whose observed encryption
mismatches policy, remediation copies the object to a fresh version
carrying the desired encryption descriptor and the source content, then
deletes exactly the original non-compliant version (the new version and
every other stored version survive), and appends two audit entries — the
rewrite entry carrying the new version id in its `new_version_id`
attribute, followed by the stale-version-deletion entry. Both entries are
recorded under the same `s3_object_path`, which carries the original
version suffix; the entries do not differ in a version suffix of the path
(that part of the original claim is refuted by
`c3_versioned_remediation_counterexample`). -/
theorem c3_versioned_remediation (table : List PolicyRecord) (s3 : S3State)
    (log : List LogItem) (now new_vid bucket_name object_name v : String)
    (obj : S3Ver) (info : KmsKeyInfo)
    (hobj : get_object s3 bucket_name object_name (some v) = some obj)
    (hres : get_kms_key_info_for_s3_pfx table bucket_name object_name = some info)
    (hmis : ¬(obj.sse_type = (if info.dual_layer_encryption then "aws:kms:dsse" else "aws:kms") ∧
        obj.kms_arn = some info.kms_key_arn))
    (hfresh : new_vid ≠ v) :
    fix_encryption_if_incorrect table s3 log now new_vid bucket_name object_name (some v) =
      .ok ({ bucket := bucket_name, key := object_name, vid := new_vid,
             sse_type := if info.dual_layer_encryption then "aws:kms:dsse" else "aws:kms",
             kms_arn := some info.kms_key_arn, content := obj.content } ::
           delete_object_version s3 bucket_name object_name v,
        log ++
          [{ s3_object_path := object_path bucket_name object_name (some v),
             current_timestamp_utc := now, current_sse_type := obj.sse_type,
             current_kms_key_arn := obj.kms_arn.getD "None",
             new_sse_type := if info.dual_layer_encryption then "aws:kms:dsse" else "aws:kms",
             new_kms_key_arn := info.kms_key_arn,
             action_taken := "Initiated copy with the right key",
             action_reason :=
               if obj.sse_type != (if info.dual_layer_encryption then "aws:kms:dsse" else "aws:kms") then
                 "Incorrect SSE type. Was " ++ obj.sse_type ++ " whereas it should have been " ++
                   (if info.dual_layer_encryption then "aws:kms:dsse" else "aws:kms")
               else
                 "Incorrect KMS key. Was " ++
                   (match obj.kms_arn with | some a => a | none => "None") ++
                   " whereas it should hve been " ++ info.kms_key_arn,
             new_version_id := some new_vid },
           { s3_object_path := object_path bucket_name object_name (some v),
             current_timestamp_utc := now, current_sse_type := obj.sse_type,
             current_kms_key_arn := obj.kms_arn.getD "None",
             new_sse_type := "N/A", new_kms_key_arn := "N/A",
             action_taken := "Deleted old version with incorrect encryption",
             action_reason := "N/A", new_version_id := none }]) ∧
    get_object
        ({ bucket := bucket_name, key := object_name, vid := new_vid,
           sse_type := if info.dual_layer_encryption then "aws:kms:dsse" else "aws:kms",
           kms_arn := some info.kms_key_arn, content := obj.content } ::
         delete_object_version s3 bucket_name object_name v)
        bucket_name object_name (some new_vid) =
      some { bucket := bucket_name, key := object_name, vid := new_vid,
             sse_type := if info.dual_layer_encryption then "aws:kms:dsse" else "aws:kms",
             kms_arn := some info.kms_key_arn, content := obj.content } := by
  have hcond : (obj.sse_type ==
      (if info.dual_layer_encryption then "aws:kms:dsse" else "aws:kms")
      && obj.kms_arn == some info.kms_key_arn) = false := by
    rw [Bool.and_eq_false_iff]
    by_cases h1 : obj.sse_type = (if info.dual_layer_encryption then "aws:kms:dsse" else "aws:kms")
    · right
      rw [beq_eq_false_iff_ne]
      exact fun h2 => hmis ⟨h1, h2⟩
    · left
      rw [beq_eq_false_iff_ne]
      exact h1
  have hvid : (new_vid == v) = false := by
    rw [beq_eq_false_iff_ne]; exact hfresh
  constructor
  · simp only [fix_encryption_if_incorrect, hobj, hres, hcond, Bool.false_eq_true, if_false,
      copy_object_versioned, delete_object_version, List.eraseP_cons, object_matches,
      log_action_into_ddb, hvid, Bool.and_false, Bool.false_and, cond_false]
    simp [List.append_assoc]
  · simp [get_object, object_matches, List.find?_cons]

/-- Counterexample for C3 as stated: running remediation on a concrete
non-compliant versioned object produces two audit entries whose
`s3_object_path` strings are identical — both carry the suffix
`?versionId=v1` of the original version — so the two entries do not have
distinct version suffixes in their object path. -/
theorem c3_versioned_remediation_counterexample :
    ((fix_encryption_if_incorrect c3Table c3Store [] "t1" "v2" "bkt" "doc/a"
        (some "v1")).toOption.map (fun res => res.2.map (fun e => e.s3_object_path))) =
      some ["s3://bkt/doc/a?versionId=v1", "s3://bkt/doc/a?versionId=v1"] := by decide

/-- Witness for C3: the concrete non-compliant versioned object is
remediated without an exception. -/
theorem c3_versioned_remediation_witness :
    (fix_encryption_if_incorrect c3Table c3Store [] "t1" "v2" "bkt" "doc/a"
        (some "v1")).isOk = true := by
  rw [(c3_versioned_remediation c3Table c3Store [] "t1" "v2" "bkt" "doc/a" "v1"
    { bucket := "bkt", key := "doc/a", vid := "v1", sse_type := "aws:kms",
      kms_arn := some "key1", content := "payload" }
    { kms_key_arn := "key2", dual_layer_encryption := false }
    (by decide) (by decide) (by decide) (by decide)).1]
  rfl

/-- C4: the batch handler reports per-item failure. A record contributes
its message id to `batch_item_failures` exactly when its
`fix_encryption_if_incorrect` call raises; the response is status 200
with no failure list when the collected failures are empty and status 500
carrying exactly the collected failures otherwise; concretely, for a
batch of three messages in which only the object of message id2 is
missing, messages id1 and id3 succeed and the response is exactly status
500 with failure list [id2]. -/
theorem c4_partial_batch_failure :
    (∀ (table : List PolicyRecord) (gen : Nat → String) (now : String) (st : HState)
        (msg_id : String) (rec : S3EventRec),
      (process_record table gen now st msg_id rec).failures =
        st.failures ++ (match fix_encryption_if_incorrect table st.s3 st.log now (gen st.ctr)
            rec.bucket_name rec.object_key rec.version_id with
          | .ok _ => [] | .error _ => [msg_id])) ∧
    (∀ (table : List PolicyRecord) (gen : Nat → String) (now : String)
        (msgs : List SqsMsg) (s3 : S3State) (log : List LogItem),
      ((msgs.foldl (process_msg table gen now) ⟨s3, log, 0, []⟩).failures = [] ∧
        lambda_handler table gen now msgs s3 log =
          ({ statusCode := 200, batchItemFailures := none },
           (msgs.foldl (process_msg table gen now) ⟨s3, log, 0, []⟩).s3,
           (msgs.foldl (process_msg table gen now) ⟨s3, log, 0, []⟩).log)) ∨
      ((msgs.foldl (process_msg table gen now) ⟨s3, log, 0, []⟩).failures ≠ [] ∧
        lambda_handler table gen now msgs s3 log =
          ({ statusCode := 500, batchItemFailures :=
              some (msgs.foldl (process_msg table gen now) ⟨s3, log, 0, []⟩).failures },
           (msgs.foldl (process_msg table gen now) ⟨s3, log, 0, []⟩).s3,
           (msgs.foldl (process_msg table gen now) ⟨s3, log, 0, []⟩).log))) ∧
    (lambda_handler [] (fun _ => "nv") "t1" c4Msgs c4Store []).1 =
      { statusCode := 500, batchItemFailures := some ["id2"] } ∧
    (fix_encryption_if_incorrect [] c4Store [] "t1" "nv" "bkt" "o1" none).isOk = true ∧
    (fix_encryption_if_incorrect [] c4Store [] "t1" "nv" "bkt" "o2" none).isOk = false ∧
    (fix_encryption_if_incorrect [] c4Store [] "t1" "nv" "bkt" "o3" none).isOk = true := by
  refine ⟨?_, ?_, by decide, by decide, by decide, by decide⟩
  · intro table gen now st msg_id rec
    rcases hfix : fix_encryption_if_incorrect table st.s3 st.log now (gen st.ctr)
        rec.bucket_name rec.object_key rec.version_id with err | ok
    · simp [process_record, hfix]
    · simp [process_record, hfix]
  · intro table gen now msgs s3 log
    by_cases hf : (msgs.foldl (process_msg table gen now) ⟨s3, log, 0, []⟩).failures = []
    · left
      refine ⟨hf, ?_⟩
      simp only [lambda_handler]
      rw [if_pos (by rw [hf]; rfl)]
    · right
      refine ⟨hf, ?_⟩
      simp only [lambda_handler]
      rw [if_neg (by simp [List.length_eq_zero, hf])]

/-- C10: a message whose body has no Records field is skipped silently:
it changes neither the object store nor the audit log, contributes no
batch item failure, and a batch holding only such a message still returns
status 200 with no failure list. -/
theorem c10_test_event_skipped :
    (∀ (table : List PolicyRecord) (gen : Nat → String) (now : String) (st : HState)
        (msg_id : String),
      process_msg table gen now st { messageId := msg_id, body_records := none } = st) ∧
    (∀ (table : List PolicyRecord) (gen : Nat → String) (now msg_id : String)
        (s3 : S3State) (log : List LogItem),
      lambda_handler table gen now [{ messageId := msg_id, body_records := none }] s3 log =
        ({ statusCode := 200, batchItemFailures := none }, s3, log)) :=
  ⟨fun _ _ _ _ _ => rfl, fun _ _ _ _ _ _ => rfl⟩
